import Mathlib

/-!
Verification development for the media acquisition and normalization
pipeline of matrix-embed (src/processing.rs, src/media.rs).

The Rust functions are shallowly embedded as pure Lean functions.  External
effects (the HTTP response, the ffmpeg/ffprobe subprocesses, the mime-db
lookups of the mime_guess and infer crates) are modelled as oracles carried
in an environment record: each embedded function is a function of the
observable outcomes of those effects.  I/O errors of the local filesystem
(temp-file creation, writes, reads) are outside the model: the embedding
covers executions in which local file I/O succeeds, which is the regime all
the verified claims quantify over.
-/

namespace MatrixEmbed

/-! ## Character and string helpers

`asciiLower`/`eqIgnoreAsciiCase` model `u8/char::eq_ignore_ascii_case`
style comparison used by the extension check; `trimChars` models
`str::trim` (restricted to ASCII whitespace, which is all that occurs in
the modelled inputs); `splitOnChar` models `str::split(c)`. -/

def asciiLower (c : Char) : Char :=
  if 'A' ≤ c ∧ c ≤ 'Z' then Char.ofNat (c.toNat + 32) else c

def eqIgnoreCaseChars (a b : List Char) : Bool :=
  a.map asciiLower == b.map asciiLower

def eqIgnoreAsciiCase (a b : String) : Bool :=
  eqIgnoreCaseChars a.data b.data

def trimChars (cs : List Char) : List Char :=
  ((cs.dropWhile Char.isWhitespace).reverse.dropWhile Char.isWhitespace).reverse

def splitOnChar (sep : Char) : List Char → List (List Char)
  | [] => [[]]
  | c :: rest =>
    match splitOnChar sep rest with
    | [] => [[c]]
    | h :: t => if c = sep then [] :: h :: t else (c :: h) :: t

/-! ## MIME types

The `mime::Mime` values that occur in the pipeline are modelled as a
type/subtype pair (parameters are never inspected by the code under
verification).  The mime crate compares essence strings
ASCII-case-insensitively, hence `mimeEq`. -/

structure Mime where
  top : String
  sub : String
deriving DecidableEq, Repr

def mimeEq (a b : Mime) : Bool :=
  eqIgnoreAsciiCase a.top b.top && eqIgnoreAsciiCase a.sub b.sub

def octetStream : Mime := { top := "application", sub := "octet-stream" }

def videoMatroska : Mime := { top := "video", sub := "x-matroska" }

def videoMp4 : Mime := { top := "video", sub := "mp4" }

def imageJpeg : Mime := { top := "image", sub := "jpeg" }

/-! ## Streaming download (processing.rs lines 111-123)

The `while let Some(chunk) = response.chunk()` loop: `downloaded` is bumped
by the chunk length, compared against `max_file_size` (strictly), and only
then is the chunk written to the temporary file.  `downloaded` is a `u64`;
since the loop bails the moment the total exceeds `max_file_size`
(itself `< 2^64`), the running total never approaches `2^64` and plain
`Nat` arithmetic is faithful.  The first component of the result is the
temporary file's contents, the second is `some total` iff the loop bailed
with "File too large (streamed)". -/

def downloadLoop (budget : Nat) : List (List Nat) → Nat → List Nat → List Nat × Option Nat
  | [], _, file => (file, none)
  | chunk :: rest, downloaded, file =>
    if budget < downloaded + chunk.length then (file, some (downloaded + chunk.length))
    else downloadLoop budget rest (downloaded + chunk.length) (file ++ chunk)

/-- The whole download stage: run the loop and, on success, read the data
back from the temporary file (`tokio::fs::read`), which returns exactly the
bytes written. -/
def downloadBody (budget : Nat) (chunks : List (List Nat)) : List Nat × Except Nat (List Nat) :=
  match downloadLoop budget chunks 0 [] with
  | (file, none) => (file, Except.ok file)
  | (file, some d) => (file, Except.error d)

/-- Sum of the lengths of the first `n` chunks: the running total the Rust
loop has accumulated after consuming `n` chunks. -/
def chunkPrefixSum (chunks : List (List Nat)) (n : Nat) : Nat :=
  ((chunks.take n).map List.length).sum

/-! ## Process runner (media.rs)

`probe_media` and `generate_thumbnail` spawn a tool with piped stdin and
stdout.  A run is modelled by its observable outcomes: the stdin write
(`none` = the write timed out, which propagates as an error through the
`timeout(..)?`; `some (error k)` = `write_all` failed with io error kind
`k`; `some (ok ())` = the write succeeded), whether `wait_with_output`
timed out, the exit status, and the captured stdout/stderr. -/

inductive IOErrorKind where
  | brokenPipe
  | other (tag : String)
deriving DecidableEq, Repr

inductive ProcErr where
  | writeTimedOut
  | writeFailed (k : IOErrorKind)
  | readTimedOut
  | toolFailed (stderrText : String)
  | emptyOutput
  | badFormat (outText : String)
  | parseWidthFailed
  | parseHeightFailed
deriving DecidableEq, Repr

/-- media.rs lines 47-52 and 109-113: the write to the child's stdin.
`if let Err(e) = timeout(_, stdin.write_all(data)).await? && e.kind() !=
BrokenPipe { return Err }` — a timeout propagates, a broken pipe is
swallowed, any other error kind fails. -/
def stdinWritePhase (w : Option (Except IOErrorKind Unit)) : Except ProcErr Unit :=
  match w with
  | none => Except.error ProcErr.writeTimedOut
  | some (Except.error k) =>
    if k = IOErrorKind.brokenPipe then Except.ok () else Except.error (ProcErr.writeFailed k)
  | some (Except.ok _) => Except.ok ()

structure MediaInfo where
  width : Nat
  height : Nat
deriving DecidableEq, Repr

/-- Rust `str::parse::<u32>()`: optional leading plus sign, one or more
ASCII digits, value below `2^32`. -/
def parseU32 (cs : List Char) : Option Nat :=
  let ds := match cs with
    | '+' :: rest => rest
    | l => l
  if ds = [] then none
  else if ds.all Char.isDigit then
    let n := ds.foldl (fun acc c => acc * 10 + (c.toNat - 48)) 0
    if n < 4294967296 then some n else none
  else none

/-- media.rs lines 63-78: trim the ffprobe stdout, reject empty output,
split on the single character delimiter, require exactly two fields, parse
both as `u32`. -/
def parseProbeOutput (out : String) : Except ProcErr MediaInfo :=
  let trimmed := trimChars out.data
  if trimmed = [] then Except.error ProcErr.emptyOutput
  else
    match splitOnChar 'x' trimmed with
    | [w, h] =>
      match parseU32 w with
      | none => Except.error ProcErr.parseWidthFailed
      | some wi =>
        match parseU32 h with
        | none => Except.error ProcErr.parseHeightFailed
        | some hi => Except.ok { width := wi, height := hi }
    | _ => Except.error (ProcErr.badFormat (List.asString trimmed))

structure ProbeRun where
  stdinWrite : Option (Except IOErrorKind Unit)
  readTimedOut : Bool
  exitSuccess : Bool
  stdoutText : String
  stderrText : String
deriving Repr

/-- media.rs `probe_media`, as a function of the subprocess run's
observable outcomes. -/
def probe_media (r : ProbeRun) : Except ProcErr MediaInfo :=
  match stdinWritePhase r.stdinWrite with
  | Except.error e => Except.error e
  | Except.ok _ =>
    if r.readTimedOut then Except.error ProcErr.readTimedOut
    else if r.exitSuccess then parseProbeOutput r.stdoutText
    else Except.error (ProcErr.toolFailed r.stderrText)

structure ThumbRun where
  stdinWrite : Option (Except IOErrorKind Unit)
  readTimedOut : Bool
  exitSuccess : Bool
  stdoutBytes : List Nat
  stderrText : String
deriving Repr

/-- media.rs `generate_thumbnail`, as a function of the subprocess run's
observable outcomes; on success it returns the tool's stdout bytes. -/
def generate_thumbnail (r : ThumbRun) : Except ProcErr (List Nat) :=
  match stdinWritePhase r.stdinWrite with
  | Except.error e => Except.error e
  | Except.ok _ =>
    if r.readTimedOut then Except.error ProcErr.readTimedOut
    else if r.exitSuccess then Except.ok r.stdoutBytes
    else Except.error (ProcErr.toolFailed r.stderrText)

/-! ## Container remuxer (media.rs lines 134-248)

Each ffmpeg invocation of `remux_to_mp4` either times out (the
`timeout(..)? `propagates an error, no fallback), fails to run at all, or
completes with an exit status; on a successful completion the output
temporary file holds the produced bytes. -/

inductive RunResult where
  | timedOut
  | runFailed (msg : String)
  | completed (success : Bool) (out : List Nat) (stderrText : String)
deriving DecidableEq, Repr

inductive RemuxErr where
  | copyTimedOut
  | copyRunFailed (msg : String)
  | reencodeTimedOut
  | reencodeRunFailed (msg : String)
  | reencodeFailed (stderrText : String)
deriving DecidableEq, Repr

/-- media.rs `remux_to_mp4`: stage 1 is the stream-copy invocation; if and
only if it completes with a failing exit status, stage 2 (the reencode
invocation) runs.  A success at either stage returns that stage's output
file contents. -/
def remux_to_mp4 (copyRun reencodeRun : RunResult) : Except RemuxErr (List Nat) :=
  match copyRun with
  | RunResult.timedOut => Except.error RemuxErr.copyTimedOut
  | RunResult.runFailed m => Except.error (RemuxErr.copyRunFailed m)
  | RunResult.completed true out _ => Except.ok out
  | RunResult.completed false _ _ =>
    match reencodeRun with
    | RunResult.timedOut => Except.error RemuxErr.reencodeTimedOut
    | RunResult.runFailed m => Except.error (RemuxErr.reencodeRunFailed m)
    | RunResult.completed true out _ => Except.ok out
    | RunResult.completed false _ e => Except.error (RemuxErr.reencodeFailed e)

/-! ## The response-processing pipeline (processing.rs `process_response`)

The `reqwest::Response` is modelled by its observations: the declared
`Content-Length`, the `Content-Type` header value (after `to_str().ok()`),
the `Content-Disposition` header value, the final (post-redirect) URL's
path and last path segment, and the body chunk stream.  Transport errors
while reading chunks are outside the model (they propagate unconditionally
through `?` and decide none of the claims). -/

structure Config where
  maxFileSize : Nat
deriving DecidableEq, Repr

structure Response where
  contentLength : Option Nat
  contentTypeHeader : Option String
  contentDisposition : Option String
  urlPath : String
  urlLastSegment : Option String
  chunks : List (List Nat)
deriving DecidableEq, Repr

/-- Oracles for the external collaborators `process_response` consults:
`parseMime` is `str::parse::<Mime>`, `fromPathGuess` is
`mime_guess::from_path(..).first()`, `inferGet` is
`infer::get(..).map(|k| k.mime_type())`, `mimeExtensions` is
`mime_guess::get_mime_extensions`, `copyRun`/`reencodeRun` are the two
ffmpeg invocations of `remux_to_mp4` on the given input bytes, and
`probe`/`thumbnail`/`blurhash` are the outcomes of `probe_media`,
`generate_thumbnail` and `generate_blurhash` at their call sites (their
error payloads are never inspected by `process_response`, so `Option`
suffices). -/
structure Env where
  parseMime : String → Option Mime
  fromPathGuess : String → Option Mime
  inferGet : List Nat → Option String
  mimeExtensions : Mime → Option (List String)
  copyRun : List Nat → RunResult
  reencodeRun : List Nat → RunResult
  probe : List Nat → Option MediaInfo
  thumbnail : List Nat → Nat → Option (List Nat)
  blurhash : List Nat → Option String

structure Thumb where
  data : List Nat
  contentType : Mime
  width : Nat
  height : Nat
  size : Nat
deriving DecidableEq, Repr

inductive AttachmentInfo where
  | image (width height : Option Nat) (blurhash : Option String)
  | video (width height : Option Nat) (blurhash : Option String)
  | audio
deriving DecidableEq, Repr

structure AttachmentConfig where
  thumbnail : Option Thumb
  info : Option AttachmentInfo
  caption : Option String
deriving DecidableEq, Repr

def AttachmentConfig.new : AttachmentConfig :=
  { thumbnail := none, info := none, caption := none }

structure AttachmentData where
  filename : String
  mimeType : Mime
  data : List Nat
  attachmentConfig : AttachmentConfig
deriving DecidableEq, Repr

inductive PErr where
  | tooLargeDeclared (len : Nat)
  | tooLargeStreamed (total : Nat)
deriving DecidableEq, Repr

/-- processing.rs lines 96-101: the server-declared content type if it
parses, else the extension-derived guess from the final URL path, else
`application/octet-stream` (`first_or_octet_stream`). -/
def initialMimeType (env : Env) (hdr : Option String) (urlPath : String) : Mime :=
  match hdr.bind env.parseMime with
  | some m => m
  | none =>
    match env.fromPathGuess urlPath with
    | some g => g
    | none => octetStream

/-- processing.rs lines 125-131: the content-sniffed type overrides the
initial one when `infer::get` finds a signature and its mime string
parses. -/
def resolveMimeType (env : Env) (hdr : Option String) (urlPath : String) (body : List Nat) :
    Mime :=
  match (env.inferGet body).bind env.parseMime with
  | some sniffed => sniffed
  | none => initialMimeType env hdr urlPath

/-- processing.rs lines 135-147: remux only when the resolved type is
Matroska; on success the data and the type are replaced, on failure the
original pair is kept. -/
def normalizeStage (env : Env) (body : List Nat) (m : Mime) : List Nat × Mime :=
  if mimeEq m videoMatroska then
    match remux_to_mp4 (env.copyRun body) (env.reencodeRun body) with
    | Except.ok mp4 => (mp4, videoMp4)
    | Except.error _ => (body, m)
  else (body, m)

/-- processing.rs lines 166-199: the thumbnail added to the attachment
config, when `generate_thumbnail` succeeds and probing the produced
thumbnail yields dimensions.  `size` is `thumb.len() as u32`, a truncating
cast. -/
def thumbOf (env : Env) (data : List Nat) : Option Thumb :=
  match env.thumbnail data 600 with
  | none => none
  | some thumb =>
    match env.probe thumb with
    | none => none
    | some ti =>
      some { data := thumb, contentType := imageJpeg, width := ti.width, height := ti.height,
             size := thumb.length % 2 ^ 32 }

/-- processing.rs lines 169-175: the blurhash, computed only from a
successfully generated thumbnail. -/
def blurhashOf (env : Env) (data : List Nat) : Option String :=
  (env.thumbnail data 600).bind env.blurhash

/-- processing.rs lines 202-226: the `AttachmentInfo` attached by the
`if/else if` chain on the resolved type's top-level type (the mime crate's
`Name` equality is ASCII-case-insensitive). -/
def infoOf (env : Env) (data : List Nat) (m : Mime) (info : MediaInfo) : Option AttachmentInfo :=
  if eqIgnoreAsciiCase m.top "image" then
    some (AttachmentInfo.image (some info.width) (some info.height) (blurhashOf env data))
  else if eqIgnoreAsciiCase m.top "video" then
    some (AttachmentInfo.video (some info.width) (some info.height) (blurhashOf env data))
  else if eqIgnoreAsciiCase m.top "audio" then
    some AttachmentInfo.audio
  else none

/-- processing.rs lines 160-231: the attachment config after the probe /
thumbnail / blurhash block.  When probing fails the config stays
`AttachmentConfig::new()`; when it succeeds the net effect of the
imperative updates is the thumbnail field from the thumbnail block and the
info field from the top-level-type chain. -/
def buildAttachment (env : Env) (data : List Nat) (m : Mime) : AttachmentConfig :=
  match env.probe data with
  | none => AttachmentConfig.new
  | some info =>
    { thumbnail := thumbOf env data
      info := infoOf env data m info
      caption := none }

/-- processing.rs lines 291-293: attach the caption when a text content was
supplied. -/
def applyCaption (text : Option String) (c : AttachmentConfig) : AttachmentConfig :=
  match text with
  | some cap => { c with caption := some cap }
  | none => c

/-! ## Filename resolution (processing.rs lines 233-289) -/

/-- `std::path::Path::extension()` on a bare file name (no path
separator): the portion after the last dot, unless there is no dot other
than a leading one; the components `.` and `..` have no extension.  The
theorems that rely on this model restrict the file name to
separator-free strings, where this matches the Rust semantics. -/
def extensionOfChars (cs : List Char) : Option (List Char) :=
  if cs = ['.', '.'] then none
  else if (cs.reverse.takeWhile (fun c => c != '.')).length = cs.length then none
  else if (cs.reverse.takeWhile (fun c => c != '.')).length + 1 = cs.length then none
  else some (cs.reverse.takeWhile (fun c => c != '.')).reverse

def rustExtension (s : String) : Option String :=
  (extensionOfChars s.data).map List.asString

/-- processing.rs line 272: `path.extension().and_then(to_str).unwrap_or("")`. -/
def currentExtOf (name : String) : String := (rustExtension name).getD ""

/-- processing.rs lines 273-279: whether the current extension is
ASCII-case-insensitively among the accepted extensions for the type
(vacuously false when the type has no extension list). -/
def extIsValid (mimeExts : Option (List String)) (name : String) : Bool :=
  match mimeExts with
  | some exts => exts.any (fun x => eqIgnoreAsciiCase x (currentExtOf name))
  | none => false

/-- processing.rs lines 266-284: if a preferred extension exists and the
discovered name's current extension is not accepted for the type, append
the preferred extension. -/
def enforceExtension (mimeExts : Option (List String)) (pref : Option String) (name : String) :
    String :=
  match pref with
  | none => name
  | some ext => if extIsValid mimeExts name then name else name ++ "." ++ ext

def quoteChar : Char := Char.ofNat 34

/-- processing.rs lines 242-253: one `;`-separated part of the
Content-Disposition header.  The part is trimmed; a case-insensitive
`filename=` prefix is required (the Rust code lowercases the part, an
ASCII-character-wise operation on the header values in scope); the value
is sliced past the 9-character prefix and trimmed; a surrounding pair of
double quotes is stripped; an empty result is skipped (the loop
continues). -/
def stripQuotes (raw : List Char) : List Char :=
  if raw.head? = some quoteChar ∧ raw.getLast? = some quoteChar then (raw.drop 1).dropLast
  else raw

def cdPartValue (p : List Char) : List Char :=
  stripQuotes (trimChars (p.drop 9))

def cdPartName (part : List Char) : Option (List Char) :=
  if ((trimChars part).take 9).map asciiLower = "filename=".data then
    if cdPartValue (trimChars part) = [] then none else some (cdPartValue (trimChars part))
  else none

def cdFilename : List (List Char) → Option (List Char)
  | [] => none
  | p :: rest =>
    match cdPartName p with
    | some n => some n
    | none => cdFilename rest

/-- processing.rs lines 257-264: the fallback to the last URL path segment,
used when nonempty. -/
def urlFallbackName (seg : Option String) : Option String :=
  match seg with
  | some s => if s = "" then none else some s
  | none => none

/-- processing.rs lines 240-264: the discovered name — the first
`filename=` value of the Content-Disposition header, else the last path
segment of the final URL when nonempty. -/
def foundName (resp : Response) : Option String :=
  match resp.contentDisposition with
  | some cd =>
    match cdFilename (splitOnChar ';' cd.data) with
    | some nm => some (List.asString nm)
    | none => urlFallbackName resp.urlLastSegment
  | none => urlFallbackName resp.urlLastSegment

/-- processing.rs lines 233-289: the final filename — the discovered name
with the extension enforced, else the synthesized `media.<ext>` / `media`
fallback. -/
def resolveFilename (resp : Response) (env : Env) (m : Mime) : String :=
  match foundName resp with
  | some name =>
    enforceExtension (env.mimeExtensions m) ((env.mimeExtensions m).bind List.head?) name
  | none =>
    match (env.mimeExtensions m).bind List.head? with
    | some ext => "media" ++ "." ++ ext
    | none => "media"

/-! ## The assembled pipeline -/

/-- The resolved MIME type and data after the container-normalization
stage, starting from the downloaded body. -/
def finalMimeOf (resp : Response) (env : Env) (body : List Nat) : Mime :=
  (normalizeStage env body (resolveMimeType env resp.contentTypeHeader resp.urlPath body)).2

def finalDataOf (resp : Response) (env : Env) (body : List Nat) : List Nat :=
  (normalizeStage env body (resolveMimeType env resp.contentTypeHeader resp.urlPath body)).1

/-- Everything `process_response` does after the download succeeded with
body bytes `body`. -/
def assembleFrom (resp : Response) (env : Env) (text : Option String) (body : List Nat) :
    AttachmentData :=
  { filename := resolveFilename resp env (finalMimeOf resp env body)
    mimeType := finalMimeOf resp env body
    data := finalDataOf resp env body
    attachmentConfig := applyCaption text (buildAttachment env (finalDataOf resp env body)
      (finalMimeOf resp env body)) }

def downloadAndAssemble (resp : Response) (cfg : Config) (env : Env) (text : Option String) :
    Except PErr AttachmentData :=
  match downloadBody cfg.maxFileSize resp.chunks with
  | (_, Except.error d) => Except.error (PErr.tooLargeStreamed d)
  | (_, Except.ok body) => Except.ok (assembleFrom resp env text body)

/-- processing.rs `process_response`: the fail-fast Content-Length check
(lines 89-94), then the streaming download and the assembly of the
attachment. -/
def process_response (resp : Response) (cfg : Config) (env : Env) (text : Option String) :
    Except PErr AttachmentData :=
  match resp.contentLength with
  | some len =>
    if cfg.maxFileSize < len then Except.error (PErr.tooLargeDeclared len)
    else downloadAndAssemble resp cfg env text
  | none => downloadAndAssemble resp cfg env text

/-- The resolved (pre-normalization) MIME type of a response whose download
completed: the sniff/header/url-guess/fallback resolution applied to the
joined chunk stream. -/
def resolvedMimeOf (resp : Response) (env : Env) : Mime :=
  resolveMimeType env resp.contentTypeHeader resp.urlPath resp.chunks.flatten

/-! ## Concrete fixtures for the witness theorems and the counterexample -/

/-- An inert environment: nothing parses, sniffs, probes or remuxes. -/
def envNil : Env :=
  { parseMime := fun _ => none
    fromPathGuess := fun _ => none
    inferGet := fun _ => none
    mimeExtensions := fun _ => none
    copyRun := fun _ => RunResult.timedOut
    reencodeRun := fun _ => RunResult.timedOut
    probe := fun _ => none
    thumbnail := fun _ _ => none
    blurhash := fun _ => none }

def respNil : Response :=
  { contentLength := none, contentTypeHeader := none, contentDisposition := none,
    urlPath := "", urlLastSegment := none, chunks := [] }

def cfg100 : Config := { maxFileSize := 100 }

def respDeclared : Response := { respNil with contentLength := some 200 }

def cfg10 : Config := { maxFileSize := 10 }

def respStream : Response :=
  { respNil with chunks := [[1, 2, 3, 4, 5, 6], [1, 2, 3, 4, 5, 6]] }

def respOk : Response := { respNil with chunks := [[7, 8]] }

def env3 : Env :=
  { envNil with
    inferGet := fun _ => some "video/mp4"
    parseMime := fun s => if s = "video/mp4" then some videoMp4 else none }

def env4 : Env :=
  { envNil with
    parseMime := fun s => if s = "video/mp4" then some videoMp4 else none
    inferGet := fun _ => some "video/mp4"
    mimeExtensions := fun m => if m = videoMp4 then some ["mp4", "mp4v", "mpg4"] else none }

def resp4 : Response :=
  { respNil with
    urlPath := "/clip.mp4:orig"
    urlLastSegment := some "clip.mp4:orig"
    chunks := [[0]] }

def env6 : Env :=
  { envNil with
    inferGet := fun _ => some "video/x-matroska"
    parseMime := fun s => if s = "video/x-matroska" then some videoMatroska else none
    copyRun := fun _ => RunResult.completed false [] "copy failed"
    reencodeRun := fun _ => RunResult.completed false [] "reencode failed" }

def resp6 : Response := { respNil with chunks := [[5]] }

def resp7 : Response := { respNil with chunks := [[1]] }

def env9 : Env :=
  { envNil with
    probe := fun b => if b = [9] then some { width := 5, height := 6 }
      else some { width := 10, height := 20 }
    thumbnail := fun _ _ => some [9]
    blurhash := fun _ => some "LKO2" }

def resp9 : Response := { respNil with chunks := [[1, 2]] }

/-- Same as `env9` but the prober reports 0x0 for the generated
thumbnail bytes. -/
def env9x : Env :=
  { env9 with
    probe := fun b => if b = [9] then some { width := 0, height := 0 }
      else some { width := 10, height := 20 } }

def env10 : Env :=
  { envNil with
    probe := fun _ => some { width := 3, height := 4 }
    inferGet := fun _ => some "image/jpeg"
    parseMime := fun s => if s = "image/jpeg" then some imageJpeg else none }

def resp10 : Response := { respNil with chunks := [[1]] }

def thumb9 : Thumb :=
  { data := [9], contentType := imageJpeg, width := 5, height := 6, size := 1 }

def att9 : AttachmentData :=
  { filename := "media", mimeType := octetStream, data := [1, 2],
    attachmentConfig := { thumbnail := some thumb9, info := none, caption := none } }

def thumb9x : Thumb :=
  { data := [9], contentType := imageJpeg, width := 0, height := 0, size := 1 }

def att9x : AttachmentData :=
  { filename := "media", mimeType := octetStream, data := [1, 2],
    attachmentConfig := { thumbnail := some thumb9x, info := none, caption := none } }

def att4 : AttachmentData :=
  { filename := "clip.mp4:orig.mp4", mimeType := videoMp4, data := [0],
    attachmentConfig := { thumbnail := none, info := none, caption := none } }

def cfgAtt10 : AttachmentConfig :=
  { thumbnail := none
    info := some (AttachmentInfo.image (some 3) (some 4) none)
    caption := none }

def att10 : AttachmentData :=
  { filename := "media", mimeType := imageJpeg, data := [1], attachmentConfig := cfgAtt10 }

def probeRunBase : ProbeRun :=
  { stdinWrite := some (Except.ok ()), readTimedOut := false, exitSuccess := true,
    stdoutText := "1280x720", stderrText := "" }

def thumbRunBase : ThumbRun :=
  { stdinWrite := some (Except.ok ()), readTimedOut := false, exitSuccess := true,
    stdoutBytes := [1], stderrText := "" }

/-! ## Lemmas about the download loop -/

theorem chunkPrefixSum_zero (chunks : List (List Nat)) : chunkPrefixSum chunks 0 = 0 := rfl

theorem chunkPrefixSum_nil (n : Nat) : chunkPrefixSum [] n = 0 := by
  simp [chunkPrefixSum]

theorem chunkPrefixSum_succ_cons (c : List Nat) (rest : List (List Nat)) (n : Nat) :
    chunkPrefixSum (c :: rest) (n + 1) = c.length + chunkPrefixSum rest n := by
  simp [chunkPrefixSum, List.take_succ_cons]

theorem chunkPrefixSum_le (chunks : List (List Nat)) (n : Nat) :
    chunkPrefixSum chunks n ≤ (chunks.map List.length).sum := by
  induction chunks generalizing n with
  | nil => simp [chunkPrefixSum_nil]
  | cons c rest ih =>
    cases n with
    | zero => simp [chunkPrefixSum_zero]
    | succ m =>
      rw [chunkPrefixSum_succ_cons]
      have := ih m
      simp only [List.map_cons, List.sum_cons]
      omega

theorem dl_success (budget : Nat) (chunks : List (List Nat)) :
    ∀ acc file, (∀ n, acc + chunkPrefixSum chunks n ≤ budget) →
      downloadLoop budget chunks acc file = (file ++ chunks.flatten, none) := by
  induction chunks with
  | nil => intro acc file _; simp [downloadLoop]
  | cons c rest ih =>
    intro acc file h
    have h1 : acc + chunkPrefixSum (c :: rest) 1 ≤ budget := h 1
    rw [chunkPrefixSum_succ_cons, chunkPrefixSum_zero] at h1
    have hrec : ∀ n, acc + c.length + chunkPrefixSum rest n ≤ budget := by
      intro n
      have hn := h (n + 1)
      rw [chunkPrefixSum_succ_cons] at hn
      omega
    simp only [downloadLoop]
    rw [if_neg (by omega)]
    rw [ih (acc + c.length) (file ++ c) hrec]
    simp

theorem dl_overflow (budget : Nat) (chunks : List (List Nat)) :
    ∀ k acc file, acc + chunkPrefixSum chunks k ≤ budget →
      budget < acc + chunkPrefixSum chunks (k + 1) →
      (downloadLoop budget chunks acc file).2 = some (acc + chunkPrefixSum chunks (k + 1)) := by
  induction chunks with
  | nil =>
    intro k acc file hk hk1
    exfalso
    rw [chunkPrefixSum_nil] at hk hk1
    omega
  | cons c rest ih =>
    intro k acc file hk hk1
    cases k with
    | zero =>
      rw [chunkPrefixSum_succ_cons, chunkPrefixSum_zero] at hk1 ⊢
      rw [chunkPrefixSum_zero] at hk
      simp only [downloadLoop]
      rw [if_pos (by omega)]
      simp
    | succ m =>
      rw [chunkPrefixSum_succ_cons] at hk hk1 ⊢
      simp only [downloadLoop]
      rw [if_neg (by omega)]
      have := ih m (acc + c.length) (file ++ c) (by omega) (by omega)
      rw [this]
      congr 1
      omega

theorem dl_bound (budget : Nat) (chunks : List (List Nat)) :
    ∀ acc file, file.length = acc → acc ≤ budget →
      (downloadLoop budget chunks acc file).1.length ≤ budget := by
  induction chunks with
  | nil =>
    intro acc file hl hb
    simp only [downloadLoop]
    simpa [hl] using hb
  | cons c rest ih =>
    intro acc file hl hb
    simp only [downloadLoop]
    by_cases hc : budget < acc + c.length
    · rw [if_pos hc]
      simpa [hl] using hb
    · rw [if_neg hc]
      exact ih (acc + c.length) (file ++ c) (by simp [hl]) (by omega)

/-! ## Master lemmas about `process_response` -/

theorem process_response_contentLength_some (resp : Response) (cfg : Config) (env : Env)
    (text : Option String) (len : Nat) (hcl : resp.contentLength = some len) :
    process_response resp cfg env text
      = if cfg.maxFileSize < len then Except.error (PErr.tooLargeDeclared len)
        else downloadAndAssemble resp cfg env text := by
  unfold process_response
  rw [hcl]

theorem process_response_contentLength_none (resp : Response) (cfg : Config) (env : Env)
    (text : Option String) (hcl : resp.contentLength = none) :
    process_response resp cfg env text = downloadAndAssemble resp cfg env text := by
  unfold process_response
  rw [hcl]

theorem process_response_ok (resp : Response) (cfg : Config) (env : Env) (text : Option String)
    (h1 : ∀ len, resp.contentLength = some len → len ≤ cfg.maxFileSize)
    (h2 : ∀ n, chunkPrefixSum resp.chunks n ≤ cfg.maxFileSize) :
    process_response resp cfg env text
      = Except.ok (assembleFrom resp env text resp.chunks.flatten) := by
  have hdl : downloadLoop cfg.maxFileSize resp.chunks 0 [] = (resp.chunks.flatten, none) := by
    have := dl_success cfg.maxFileSize resp.chunks 0 [] (fun n => by simpa using h2 n)
    simpa using this
  have hda : downloadAndAssemble resp cfg env text
      = Except.ok (assembleFrom resp env text resp.chunks.flatten) := by
    unfold downloadAndAssemble downloadBody
    rw [hdl]
  cases hcl : resp.contentLength with
  | none => rw [process_response_contentLength_none resp cfg env text hcl]; exact hda
  | some len =>
    rw [process_response_contentLength_some resp cfg env text len hcl,
      if_neg (Nat.not_lt.mpr (h1 len hcl))]
    exact hda

theorem downloadAndAssemble_ok_inv (resp : Response) (cfg : Config) (env : Env)
    (text : Option String) (a : AttachmentData)
    (h : downloadAndAssemble resp cfg env text = Except.ok a) :
    ∃ body, a = assembleFrom resp env text body := by
  unfold downloadAndAssemble at h
  split at h
  · exact absurd h (by simp)
  · rename_i body heq
    exact ⟨body, (Except.ok.inj h).symm⟩

theorem process_response_ok_inv (resp : Response) (cfg : Config) (env : Env)
    (text : Option String) (a : AttachmentData)
    (h : process_response resp cfg env text = Except.ok a) :
    ∃ body, a = assembleFrom resp env text body := by
  unfold process_response at h
  split at h
  · split at h
    · exact absurd h (by simp)
    · exact downloadAndAssemble_ok_inv resp cfg env text a h
  · exact downloadAndAssemble_ok_inv resp cfg env text a h

/-! ## C1 and C2 -/

/-- C1: for every download, the bytes ever written to the temporary file
(the first component of `downloadBody`, accumulated by `downloadLoop`,
the embedding of the streaming loop of `process_response`) never exceed the
configured byte budget: the running-total check runs before each chunk is
persisted, so the file stays within `max_file_size` — within the
budget-plus-one-chunk bound the spec permits, and in fact within the budget
itself. -/
theorem c1_budget_invariant (budget : Nat) (chunks : List (List Nat)) :
    (downloadBody budget chunks).1.length ≤ budget := by
  have h := dl_bound budget chunks 0 [] rfl (Nat.zero_le budget)
  unfold downloadBody
  cases hdl : downloadLoop budget chunks 0 [] with
  | mk file opt =>
    rw [hdl] at h
    cases opt <;> simpa using h

/-- C2: `process_response` fails with a too-large error in exactly two
cases: a declared Content-Length above the budget fails immediately, for
every possible body stream; otherwise the streamed running total failing
the budget check at some chunk boundary produces the streamed error
carrying the first over-budget total; and when neither occurs the download
succeeds and the pipeline assembles the attachment from the joined body
bytes. -/
theorem c2_too_large_cases (resp : Response) (cfg : Config) (env : Env) (text : Option String) :
    (∀ len, resp.contentLength = some len → cfg.maxFileSize < len →
      ∀ chunks2, process_response { resp with chunks := chunks2 } cfg env text
        = Except.error (PErr.tooLargeDeclared len))
    ∧ ((∀ len, resp.contentLength = some len → len ≤ cfg.maxFileSize) →
      ((∀ n, chunkPrefixSum resp.chunks n ≤ cfg.maxFileSize) →
        process_response resp cfg env text
          = Except.ok (assembleFrom resp env text resp.chunks.flatten))
      ∧ (∀ k, chunkPrefixSum resp.chunks k ≤ cfg.maxFileSize →
          cfg.maxFileSize < chunkPrefixSum resp.chunks (k + 1) →
          process_response resp cfg env text
            = Except.error (PErr.tooLargeStreamed (chunkPrefixSum resp.chunks (k + 1))))) := by
  constructor
  · intro len hlen hlt chunks2
    rw [process_response_contentLength_some { resp with chunks := chunks2 } cfg env text len
      (show ({ resp with chunks := chunks2 } : Response).contentLength = some len from hlen)]
    rw [if_pos hlt]
  · intro hdecl
    constructor
    · intro hstream
      exact process_response_ok resp cfg env text hdecl hstream
    · intro k hk hk1
      have hov : (downloadLoop cfg.maxFileSize resp.chunks 0 []).2
          = some (chunkPrefixSum resp.chunks (k + 1)) := by
        have := dl_overflow cfg.maxFileSize resp.chunks k 0 [] (by simpa using hk)
          (by simpa using hk1)
        simpa using this
      have hda : downloadAndAssemble resp cfg env text
          = Except.error (PErr.tooLargeStreamed (chunkPrefixSum resp.chunks (k + 1))) := by
        unfold downloadAndAssemble downloadBody
        cases hdl : downloadLoop cfg.maxFileSize resp.chunks 0 [] with
        | mk file opt =>
          rw [hdl] at hov
          simp only at hov
          subst hov
          rfl
      cases hcl : resp.contentLength with
      | none => rw [process_response_contentLength_none resp cfg env text hcl]; exact hda
      | some len =>
        rw [process_response_contentLength_some resp cfg env text len hcl,
          if_neg (Nat.not_lt.mpr (hdecl len hcl))]
        exact hda

/-- Witness for C2: a declared length of 200 against a budget of 100 fails
fast; a stream of two 6-byte chunks against a budget of 10 fails at total
12; a small stream under budget succeeds. -/
theorem c2_witness :
    process_response respDeclared cfg100 envNil none
        = Except.error (PErr.tooLargeDeclared 200)
    ∧ process_response respStream cfg10 envNil none
        = Except.error (PErr.tooLargeStreamed 12)
    ∧ process_response respOk cfg100 envNil none
        = Except.ok (assembleFrom respOk envNil none respOk.chunks.flatten) := by
  refine ⟨?_, ?_, ?_⟩
  · exact (c2_too_large_cases respDeclared cfg100 envNil none).1 200 rfl (by decide) []
  · exact ((c2_too_large_cases respStream cfg10 envNil none).2 (fun len h => nomatch h)).2 1
      (by decide) (by decide)
  · exact ((c2_too_large_cases respOk cfg100 envNil none).2 (fun len h => nomatch h)).1
      (fun n => le_trans (chunkPrefixSum_le respOk.chunks n) (by decide))

/-! ## C3 -/

/-- C3: the final MIME type is resolved with precedence (highest wins):
content-sniffed signature of the downloaded bytes when sniffing succeeds
(its mime string parses), otherwise the server-declared Content-Type when
present and parseable, otherwise the extension-derived guess from the final
URL path, otherwise application/octet-stream.  This is the resolution of
processing.rs lines 96-101 and 125-131, which feeds the rest of the
pipeline. -/
theorem c3_mime_precedence (env : Env) (hdr : Option String) (urlPath : String)
    (body : List Nat) :
    (∀ s m, env.inferGet body = some s → env.parseMime s = some m →
      resolveMimeType env hdr urlPath body = m)
    ∧ ((env.inferGet body).bind env.parseMime = none →
      ∀ h m, hdr = some h → env.parseMime h = some m →
        resolveMimeType env hdr urlPath body = m)
    ∧ ((env.inferGet body).bind env.parseMime = none → hdr.bind env.parseMime = none →
      ∀ g, env.fromPathGuess urlPath = some g →
        resolveMimeType env hdr urlPath body = g)
    ∧ ((env.inferGet body).bind env.parseMime = none → hdr.bind env.parseMime = none →
      env.fromPathGuess urlPath = none →
        resolveMimeType env hdr urlPath body = octetStream) := by
  refine ⟨?_, ?_, ?_, ?_⟩
  · intro s m hs hm
    simp [resolveMimeType, hs, hm]
  · intro hsn h m hh hm
    simp [resolveMimeType, initialMimeType, hsn, hh, hm]
  · intro hsn hhn g hg
    simp [resolveMimeType, initialMimeType, hsn, hhn, hg]
  · intro hsn hhn hgn
    simp [resolveMimeType, initialMimeType, hsn, hhn, hgn]

/-- Witness for C3: a successful sniff wins; with nothing available the
type falls back to application/octet-stream. -/
theorem c3_witness :
    resolveMimeType env3 none "" [] = videoMp4
    ∧ resolveMimeType envNil (some "text/html") "" [] = octetStream := by
  constructor
  · exact (c3_mime_precedence env3 none "" []).1 "video/mp4" videoMp4 rfl rfl
  · exact (c3_mime_precedence envNil (some "text/html") "" []).2.2.2 rfl rfl rfl

/-! ## C5 -/

/-- C5: `remux_to_mp4` returns the stream-copy result immediately when that
stage succeeds — for every possible reencode outcome, so the reencode stage
cannot influence (and is not consulted in) that case — and when stream copy
completes unsuccessfully and reencode succeeds, the returned bytes are the
reencode stage's output. -/
theorem c5_remux_order :
    (∀ (out : List Nat) (s : String) (re : RunResult),
      remux_to_mp4 (RunResult.completed true out s) re = Except.ok out)
    ∧ (∀ (out out2 : List Nat) (s s2 : String),
      remux_to_mp4 (RunResult.completed false out s) (RunResult.completed true out2 s2)
        = Except.ok out2) :=
  ⟨fun _ _ _ => rfl, fun _ _ _ _ => rfl⟩

/-! ## C8 -/

/-- C8: in both subprocess drivers (`probe_media`, `generate_thumbnail`) a
broken-pipe error during the stdin write is not an error — the invocation
proceeds exactly as if the write had succeeded — while a write error of any
other kind fails the invocation with a write failure. -/
theorem c8_broken_pipe :
    (∀ r : ProbeRun,
      probe_media { r with stdinWrite := some (Except.error IOErrorKind.brokenPipe) }
        = probe_media { r with stdinWrite := some (Except.ok ()) })
    ∧ (∀ r : ThumbRun,
      generate_thumbnail { r with stdinWrite := some (Except.error IOErrorKind.brokenPipe) }
        = generate_thumbnail { r with stdinWrite := some (Except.ok ()) })
    ∧ (∀ (r : ProbeRun) (k : IOErrorKind), k ≠ IOErrorKind.brokenPipe →
      probe_media { r with stdinWrite := some (Except.error k) }
        = Except.error (ProcErr.writeFailed k))
    ∧ (∀ (r : ThumbRun) (k : IOErrorKind), k ≠ IOErrorKind.brokenPipe →
      generate_thumbnail { r with stdinWrite := some (Except.error k) }
        = Except.error (ProcErr.writeFailed k)) := by
  refine ⟨fun r => rfl, fun r => rfl, ?_, ?_⟩
  · intro r k hk
    simp [probe_media, stdinWritePhase, hk]
  · intro r k hk
    simp [generate_thumbnail, stdinWritePhase, hk]

/-- Witness for C8: a broken pipe while feeding ffprobe leaves the result
as if the write succeeded; a permission-style error fails both drivers. -/
theorem c8_witness :
    probe_media { probeRunBase with stdinWrite := some (Except.error IOErrorKind.brokenPipe) }
        = probe_media { probeRunBase with stdinWrite := some (Except.ok ()) }
    ∧ probe_media
        { probeRunBase with stdinWrite := some (Except.error (IOErrorKind.other "denied")) }
        = Except.error (ProcErr.writeFailed (IOErrorKind.other "denied"))
    ∧ generate_thumbnail
        { thumbRunBase with stdinWrite := some (Except.error (IOErrorKind.other "denied")) }
        = Except.error (ProcErr.writeFailed (IOErrorKind.other "denied")) := by
  refine ⟨c8_broken_pipe.1 probeRunBase, ?_, ?_⟩
  · exact c8_broken_pipe.2.2.1 probeRunBase (IOErrorKind.other "denied") (by decide)
  · exact c8_broken_pipe.2.2.2 thumbRunBase (IOErrorKind.other "denied") (by decide)

/-! ## Lemmas about the assembly stages -/

theorem applyCaption_thumbnail (text : Option String) (c : AttachmentConfig) :
    (applyCaption text c).thumbnail = c.thumbnail := by
  cases text <;> rfl

theorem applyCaption_info (text : Option String) (c : AttachmentConfig) :
    (applyCaption text c).info = c.info := by
  cases text <;> rfl

theorem normalizeStage_not_matroska (env : Env) (body : List Nat) (m : Mime)
    (hm : mimeEq m videoMatroska = false) :
    normalizeStage env body m = (body, m) := by
  unfold normalizeStage
  rw [hm]
  simp

theorem normalizeStage_remux_error (env : Env) (body : List Nat) (m : Mime) (e : RemuxErr)
    (hm : mimeEq m videoMatroska = true)
    (hr : remux_to_mp4 (env.copyRun body) (env.reencodeRun body) = Except.error e) :
    normalizeStage env body m = (body, m) := by
  unfold normalizeStage
  rw [hm, hr]
  simp

theorem buildAttachment_probe_none (env : Env) (data : List Nat) (m : Mime)
    (hp : env.probe data = none) :
    buildAttachment env data m = AttachmentConfig.new := by
  unfold buildAttachment
  rw [hp]

theorem buildAttachment_thumbnail_some (env : Env) (data : List Nat) (m : Mime) (i : MediaInfo)
    (hp : env.probe data = some i) :
    (buildAttachment env data m).thumbnail = thumbOf env data := by
  unfold buildAttachment
  rw [hp]

theorem buildAttachment_info_some (env : Env) (data : List Nat) (m : Mime) (i : MediaInfo)
    (hp : env.probe data = some i) :
    (buildAttachment env data m).info = infoOf env data m i := by
  unfold buildAttachment
  rw [hp]

theorem thumbOf_none_thumb (env : Env) (data : List Nat)
    (h : env.thumbnail data 600 = none) : thumbOf env data = none := by
  unfold thumbOf
  simp [h]

theorem thumbOf_none_probe (env : Env) (data thumb : List Nat)
    (h1 : env.thumbnail data 600 = some thumb) (h2 : env.probe thumb = none) :
    thumbOf env data = none := by
  unfold thumbOf
  simp [h1, h2]

theorem thumbOf_eq (env : Env) (data thumb : List Nat) (ti : MediaInfo)
    (h1 : env.thumbnail data 600 = some thumb) (h2 : env.probe thumb = some ti) :
    thumbOf env data
      = some { data := thumb, contentType := imageJpeg, width := ti.width, height := ti.height,
               size := thumb.length % 2 ^ 32 } := by
  unfold thumbOf
  simp [h1, h2]

/-- When the normalization stage keeps the body and the resolved type
(non-Matroska type, or remux failure), the assembled attachment is built
directly from them. -/
theorem assembleFrom_keep (resp : Response) (env : Env) (text : Option String)
    (hkeep : normalizeStage env resp.chunks.flatten (resolvedMimeOf resp env)
      = (resp.chunks.flatten, resolvedMimeOf resp env)) :
    assembleFrom resp env text resp.chunks.flatten
      = { filename := resolveFilename resp env (resolvedMimeOf resp env)
          mimeType := resolvedMimeOf resp env
          data := resp.chunks.flatten
          attachmentConfig := applyCaption text
            (buildAttachment env resp.chunks.flatten (resolvedMimeOf resp env)) } := by
  unfold assembleFrom finalMimeOf finalDataOf
  rw [show resolveMimeType env resp.contentTypeHeader resp.urlPath resp.chunks.flatten
    = resolvedMimeOf resp env from rfl]
  rw [hkeep]

/-! ## C6 and C7 -/

/-- C6: container normalization is attempted only when the resolved type is
video/x-matroska — when it is not, the remux oracles are never consulted
(the result is the same for every remux behavior) and the body and type
pass through unchanged — and when it is Matroska and both remux stages fail,
the pipeline still returns successfully with the original downloaded bytes
and the original resolved MIME type. -/
theorem c6_normalization_best_effort (resp : Response) (cfg : Config) (env : Env)
    (text : Option String)
    (h1 : ∀ len, resp.contentLength = some len → len ≤ cfg.maxFileSize)
    (h2 : ∀ n, chunkPrefixSum resp.chunks n ≤ cfg.maxFileSize) :
    (mimeEq (resolvedMimeOf resp env) videoMatroska = false →
      (∀ g g', process_response resp cfg { env with copyRun := g, reencodeRun := g' } text
        = process_response resp cfg env text)
      ∧ process_response resp cfg env text
        = Except.ok (assembleFrom resp env text resp.chunks.flatten)
      ∧ (assembleFrom resp env text resp.chunks.flatten).data = resp.chunks.flatten
      ∧ (assembleFrom resp env text resp.chunks.flatten).mimeType = resolvedMimeOf resp env)
    ∧ (mimeEq (resolvedMimeOf resp env) videoMatroska = true →
      ∀ e, remux_to_mp4 (env.copyRun resp.chunks.flatten) (env.reencodeRun resp.chunks.flatten)
        = Except.error e →
      process_response resp cfg env text
        = Except.ok (assembleFrom resp env text resp.chunks.flatten)
      ∧ (assembleFrom resp env text resp.chunks.flatten).data = resp.chunks.flatten
      ∧ (assembleFrom resp env text resp.chunks.flatten).mimeType = resolvedMimeOf resp env) := by
  have hmaster := process_response_ok resp cfg env text h1 h2
  constructor
  · intro hfalse
    have hkeep := normalizeStage_not_matroska env resp.chunks.flatten (resolvedMimeOf resp env)
      hfalse
    have hkeepEq := assembleFrom_keep resp env text hkeep
    refine ⟨?_, hmaster, by rw [hkeepEq], by rw [hkeepEq]⟩
    intro g g'
    have hkeep' := normalizeStage_not_matroska { env with copyRun := g, reencodeRun := g' }
      resp.chunks.flatten (resolvedMimeOf resp { env with copyRun := g, reencodeRun := g' })
      hfalse
    rw [process_response_ok resp cfg { env with copyRun := g, reencodeRun := g' } text h1 h2,
      hmaster, assembleFrom_keep resp { env with copyRun := g, reencodeRun := g' } text hkeep',
      assembleFrom_keep resp env text hkeep]
    rfl
  · intro htrue e hremux
    have hkeep := normalizeStage_remux_error env resp.chunks.flatten (resolvedMimeOf resp env)
      e htrue hremux
    have hkeepEq := assembleFrom_keep resp env text hkeep
    exact ⟨hmaster, by rw [hkeepEq], by rw [hkeepEq]⟩

/-- Witness for C6: a sniffed Matroska stream whose stream-copy and
reencode stages both fail still yields a successful result carrying the
original bytes and the original type. -/
theorem c6_witness :
    process_response resp6 cfg100 env6 none
      = Except.ok (assembleFrom resp6 env6 none resp6.chunks.flatten)
    ∧ (assembleFrom resp6 env6 none resp6.chunks.flatten).data = resp6.chunks.flatten
    ∧ (assembleFrom resp6 env6 none resp6.chunks.flatten).mimeType = resolvedMimeOf resp6 env6 :=
  (c6_normalization_best_effort resp6 cfg100 env6 none (fun len hl => nomatch hl)
    (fun n => le_trans (chunkPrefixSum_le resp6.chunks n) (by decide))).2 rfl
    (RemuxErr.reencodeFailed "reencode failed") rfl

/-- C7: when probing the downloaded (and possibly normalized) media fails,
the pipeline still returns a successful attachment whose thumbnail and
info — the carrier of width, height and blurhash placeholder — are both
absent. -/
theorem c7_probe_failure_best_effort (resp : Response) (cfg : Config) (env : Env)
    (text : Option String)
    (h1 : ∀ len, resp.contentLength = some len → len ≤ cfg.maxFileSize)
    (h2 : ∀ n, chunkPrefixSum resp.chunks n ≤ cfg.maxFileSize)
    (hp : env.probe (finalDataOf resp env resp.chunks.flatten) = none) :
    process_response resp cfg env text
      = Except.ok (assembleFrom resp env text resp.chunks.flatten)
    ∧ (assembleFrom resp env text resp.chunks.flatten).attachmentConfig.thumbnail = none
    ∧ (assembleFrom resp env text resp.chunks.flatten).attachmentConfig.info = none := by
  have hb := buildAttachment_probe_none env (finalDataOf resp env resp.chunks.flatten)
    (finalMimeOf resp env resp.chunks.flatten) hp
  have hc : (assembleFrom resp env text resp.chunks.flatten).attachmentConfig
      = applyCaption text (buildAttachment env (finalDataOf resp env resp.chunks.flatten)
          (finalMimeOf resp env resp.chunks.flatten)) := rfl
  refine ⟨process_response_ok resp cfg env text h1 h2, ?_, ?_⟩
  · rw [hc, applyCaption_thumbnail, hb]
    rfl
  · rw [hc, applyCaption_info, hb]
    rfl

/-- Witness for C7: unprobeable bytes still produce a successful result
with no thumbnail and no info. -/
theorem c7_witness :
    process_response resp7 cfg100 envNil none
      = Except.ok (assembleFrom resp7 envNil none resp7.chunks.flatten)
    ∧ (assembleFrom resp7 envNil none resp7.chunks.flatten).attachmentConfig.thumbnail = none
    ∧ (assembleFrom resp7 envNil none resp7.chunks.flatten).attachmentConfig.info = none :=
  c7_probe_failure_best_effort resp7 cfg100 envNil none (fun len hl => nomatch hl)
    (fun n => le_trans (chunkPrefixSum_le resp7.chunks n) (by decide)) rfl

/-! ## C9 -/

/-- C9 (amended): in every produced attachment, a present thumbnail carries
exactly the dimensions the prober reported for the generated thumbnail
bytes — width and height are always present, and they are positive exactly
when the prober reported positive dimensions; the code never checks
positivity itself. -/
theorem c9_thumbnail_dims (resp : Response) (cfg : Config) (env : Env) (text : Option String)
    (a : AttachmentData) (t : Thumb)
    (h : process_response resp cfg env text = Except.ok a)
    (ht : a.attachmentConfig.thumbnail = some t) :
    env.thumbnail a.data 600 = some t.data
    ∧ env.probe t.data = some { width := t.width, height := t.height } := by
  obtain ⟨body, rfl⟩ := process_response_ok_inv resp cfg env text a h
  have hc : (assembleFrom resp env text body).attachmentConfig
      = applyCaption text (buildAttachment env (finalDataOf resp env body)
          (finalMimeOf resp env body)) := rfl
  rw [hc, applyCaption_thumbnail] at ht
  cases hpr : env.probe (finalDataOf resp env body) with
  | none =>
    rw [buildAttachment_probe_none env _ _ hpr] at ht
    exact absurd ht (by simp [AttachmentConfig.new])
  | some info =>
    rw [buildAttachment_thumbnail_some env _ _ info hpr] at ht
    cases hth : env.thumbnail (finalDataOf resp env body) 600 with
    | none =>
      rw [thumbOf_none_thumb env _ hth] at ht
      exact absurd ht (by simp)
    | some thumb =>
      cases hpt : env.probe thumb with
      | none =>
        rw [thumbOf_none_probe env _ thumb hth hpt] at ht
        exact absurd ht (by simp)
      | some ti =>
        rw [thumbOf_eq env _ thumb ti hth hpt] at ht
        have hteq := Option.some.inj ht
        subst hteq
        exact ⟨hth, hpt⟩

/-- Counterexample for C9 as stated: when the prober reports 0x0 for the
generated thumbnail, the attachment still carries that thumbnail with
width and height zero — presence of a thumbnail does not make its
dimensions positive. -/
theorem c9_counterexample :
    process_response resp9 cfg100 env9x none = Except.ok att9x
    ∧ att9x.attachmentConfig.thumbnail = some thumb9x
    ∧ thumb9x.width = 0 ∧ thumb9x.height = 0 :=
  ⟨rfl, rfl, rfl, rfl⟩

/-- Witness for C9 (amended): with a prober reporting 5x6 for the
thumbnail bytes, the attached thumbnail carries exactly those
dimensions. -/
theorem c9_witness :
    env9.thumbnail att9.data 600 = some thumb9.data
    ∧ env9.probe thumb9.data = some { width := thumb9.width, height := thumb9.height } :=
  c9_thumbnail_dims resp9 cfg100 env9 none att9 thumb9 rfl rfl

/-! ## C10 -/

/-- C10: even when probing succeeds, the probed width/height and the
placeholder are attached only for image and video top-level types; audio
gets a dimensionless info record; any other top-level type gets no info
record at all, silently dropping the probed dimensions and the computed
placeholder. -/
theorem c10_info_by_top_type (resp : Response) (cfg : Config) (env : Env) (text : Option String)
    (a : AttachmentData) (i : MediaInfo)
    (h : process_response resp cfg env text = Except.ok a)
    (hp : env.probe a.data = some i) :
    (eqIgnoreAsciiCase a.mimeType.top "image" = true →
      a.attachmentConfig.info
        = some (AttachmentInfo.image (some i.width) (some i.height) (blurhashOf env a.data)))
    ∧ (eqIgnoreAsciiCase a.mimeType.top "image" = false →
       eqIgnoreAsciiCase a.mimeType.top "video" = true →
      a.attachmentConfig.info
        = some (AttachmentInfo.video (some i.width) (some i.height) (blurhashOf env a.data)))
    ∧ (eqIgnoreAsciiCase a.mimeType.top "image" = false →
       eqIgnoreAsciiCase a.mimeType.top "video" = false →
       eqIgnoreAsciiCase a.mimeType.top "audio" = true →
      a.attachmentConfig.info = some AttachmentInfo.audio)
    ∧ (eqIgnoreAsciiCase a.mimeType.top "image" = false →
       eqIgnoreAsciiCase a.mimeType.top "video" = false →
       eqIgnoreAsciiCase a.mimeType.top "audio" = false →
      a.attachmentConfig.info = none) := by
  obtain ⟨body, rfl⟩ := process_response_ok_inv resp cfg env text a h
  simp only [assembleFrom] at hp ⊢
  rw [applyCaption_info, buildAttachment_info_some env _ _ i hp]
  unfold infoOf
  refine ⟨?_, ?_, ?_, ?_⟩
  · intro himg
    simp [himg]
  · intro himg hvid
    simp [himg, hvid]
  · intro himg hvid haud
    simp [himg, hvid, haud]
  · intro himg hvid haud
    simp [himg, hvid, haud]

/-- Witness for C10: an image-typed result carries the probed dimensions in
an image info record. -/
theorem c10_witness :
    att10.attachmentConfig.info = some (AttachmentInfo.image (some 3) (some 4) none) :=
  (c10_info_by_top_type resp10 cfg100 env10 none att10 { width := 3, height := 4 }
    rfl rfl).1 rfl

/-! ## String lemmas for the extension-consistency claim -/

theorem asString_data (s : String) : List.asString s.data = s := rfl

theorem ne_empty_data {s : String} (h : s ≠ "") : s.data ≠ [] := by
  intro hd
  apply h
  cases s with
  | mk l =>
    have hl : l = [] := hd
    rw [hl]

theorem asString_ne_empty {l : List Char} (h : l ≠ []) : List.asString l ≠ "" := by
  intro h0
  apply h
  have hdata : (List.asString l).data = "".data := by rw [h0]
  simpa [List.asString] using hdata

theorem eqIgnoreAsciiCase_refl (s : String) : eqIgnoreAsciiCase s s = true := by
  simp [eqIgnoreAsciiCase, eqIgnoreCaseChars]

theorem eqIgnoreAsciiCase_empty_right {s : String} (h : eqIgnoreAsciiCase s "" = true) :
    s = "" := by
  unfold eqIgnoreAsciiCase eqIgnoreCaseChars at h
  simp at h
  cases s with
  | mk l =>
    have hl : l = [] := h
    rw [hl]

theorem head?_mem {α : Type} {l : List α} {a : α} (h : l.head? = some a) : a ∈ l := by
  cases l with
  | nil => exact absurd h (by simp)
  | cons b t =>
    have hb : b = a := by simpa using h
    subst hb
    exact List.mem_cons_self b t

theorem takeWhile_append_stop (p : Char → Bool) (l1 : List Char) (a : Char) (l2 : List Char)
    (h1 : ∀ x ∈ l1, p x = true) (h2 : p a = false) :
    List.takeWhile p (l1 ++ a :: l2) = l1 := by
  induction l1 with
  | nil => simp [List.takeWhile_cons, h2]
  | cons c t ih =>
    have hc : p c = true := h1 c (List.mem_cons_self c t)
    simp only [List.cons_append, List.takeWhile_cons, hc, if_true]
    rw [ih (fun x hx => h1 x (List.mem_cons_of_mem c hx))]

theorem extensionOfChars_append (n e : List Char) (hn : n ≠ []) (he : e ≠ []) (hd : '.' ∉ e) :
    extensionOfChars (n ++ '.' :: e) = some e := by
  have hn' := List.length_pos.mpr hn
  have he' := List.length_pos.mpr he
  have hne2 : n ++ '.' :: e ≠ ['.', '.'] := by
    intro hcontra
    have hlen := congrArg List.length hcontra
    simp only [List.length_append, List.length_cons, List.length_nil] at hlen
    omega
  have hrev : (n ++ '.' :: e).reverse = e.reverse ++ '.' :: n.reverse := by
    simp
  have htake : (n ++ '.' :: e).reverse.takeWhile (fun c => c != '.') = e.reverse := by
    rw [hrev]
    refine takeWhile_append_stop _ _ _ _ (fun x hx => ?_) (by simp)
    rw [bne_iff_ne]
    intro hxeq
    exact hd (hxeq ▸ List.mem_reverse.mp hx)
  have hA : ¬ (((n ++ '.' :: e).reverse.takeWhile (fun c => c != '.')).length
      = (n ++ '.' :: e).length) := by
    rw [htake]
    simp only [List.length_reverse, List.length_append, List.length_cons]
    omega
  have hB : ¬ (((n ++ '.' :: e).reverse.takeWhile (fun c => c != '.')).length + 1
      = (n ++ '.' :: e).length) := by
    rw [htake]
    simp only [List.length_reverse, List.length_append, List.length_cons]
    omega
  unfold extensionOfChars
  rw [if_neg hne2, if_neg hA, if_neg hB, htake]
  simp

theorem rustExtension_append (name ext : String) (hn : name.data ≠ []) (he : ext.data ≠ [])
    (hd : '.' ∉ ext.data) :
    rustExtension (name ++ "." ++ ext) = some ext := by
  unfold rustExtension
  have hdata : (name ++ "." ++ ext).data = name.data ++ '.' :: ext.data := by
    simp [String.data_append]
  rw [hdata, extensionOfChars_append name.data ext.data hn he hd]
  simp [asString_data]

/-! ## Lemmas about the filename resolution -/

theorem cdPartName_ne_nil (p q : List Char) (h : cdPartName p = some q) : q ≠ [] := by
  unfold cdPartName at h
  split at h
  · split at h
    · exact absurd h (by simp)
    · rename_i hguard
      exact fun hq => hguard ((Option.some.inj h).trans hq)
  · exact absurd h (by simp)

theorem cdFilename_ne_nil (parts : List (List Char)) (q : List Char)
    (h : cdFilename parts = some q) : q ≠ [] := by
  induction parts with
  | nil => exact absurd h (by simp [cdFilename])
  | cons p rest ih =>
    simp only [cdFilename] at h
    cases hp : cdPartName p with
    | some n0 =>
      rw [hp] at h
      have hq : n0 = q := Option.some.inj h
      subst hq
      exact cdPartName_ne_nil p n0 hp
    | none =>
      rw [hp] at h
      exact ih h

theorem urlFallbackName_ne_empty (seg : Option String) (n : String)
    (h : urlFallbackName seg = some n) : n ≠ "" := by
  unfold urlFallbackName at h
  split at h
  · rename_i s
    split at h
    · exact absurd h (by simp)
    · rename_i hs
      have hsn : s = n := Option.some.inj h
      subst hsn
      exact hs
  · exact absurd h (by simp)

theorem foundName_ne_empty (resp : Response) (n : String) (h : foundName resp = some n) :
    n ≠ "" := by
  unfold foundName at h
  split at h
  · rename_i cd hcd
    cases hcf : cdFilename (splitOnChar ';' cd.data) with
    | some nm =>
      rw [hcf] at h
      have hasn : List.asString nm = n := Option.some.inj h
      intro h0
      exact asString_ne_empty (cdFilename_ne_nil _ nm hcf) (hasn.trans h0)
    | none =>
      rw [hcf] at h
      exact urlFallbackName_ne_empty _ n h
  · exact urlFallbackName_ne_empty _ n h

theorem enforceExtension_ok (exts : List String) (ext name : String)
    (hpref : exts.head? = some ext)
    (hgood : ∀ x ∈ exts, x ≠ "" ∧ '.' ∉ x.data)
    (hname : name ≠ "") :
    (rustExtension (enforceExtension (some exts) (some ext) name)).any
      (fun e => exts.any (fun x => eqIgnoreAsciiCase x e)) = true := by
  have hmem : ext ∈ exts := head?_mem hpref
  have hextne : ext ≠ "" := (hgood ext hmem).1
  have hextdot : '.' ∉ ext.data := (hgood ext hmem).2
  unfold enforceExtension
  cases hval : extIsValid (some exts) name with
  | false =>
    simp only [hval, Bool.false_eq_true, if_false]
    rw [rustExtension_append name ext (ne_empty_data hname) (ne_empty_data hextne) hextdot]
    simp only [Option.any_some]
    exact List.any_eq_true.mpr ⟨ext, hmem, eqIgnoreAsciiCase_refl ext⟩
  | true =>
    have hval' : exts.any (fun x => eqIgnoreAsciiCase x (currentExtOf name)) = true := hval
    obtain ⟨x, hxmem, hxeq⟩ := List.any_eq_true.mp hval'
    have hxne : x ≠ "" := (hgood x hxmem).1
    cases hre : rustExtension name with
    | none =>
      exfalso
      have hcur : currentExtOf name = "" := by unfold currentExtOf; rw [hre]; rfl
      rw [hcur] at hxeq
      exact hxne (eqIgnoreAsciiCase_empty_right hxeq)
    | some e =>
      have hcur : currentExtOf name = e := by unfold currentExtOf; rw [hre]; rfl
      simp only [hval, if_true]
      rw [hre]
      simp only [Option.any_some]
      exact List.any_eq_true.mpr ⟨x, hxmem, by rw [← hcur]; exact hxeq⟩

theorem resolveFilename_ext (resp : Response) (env : Env) (m : Mime) (exts : List String)
    (ext : String)
    (hexts : env.mimeExtensions m = some exts)
    (hpref : exts.head? = some ext)
    (hgood : ∀ x ∈ exts, x ≠ "" ∧ '.' ∉ x.data) :
    (rustExtension (resolveFilename resp env m)).any
      (fun e => exts.any (fun x => eqIgnoreAsciiCase x e)) = true := by
  have hmem : ext ∈ exts := head?_mem hpref
  have hextne : ext ≠ "" := (hgood ext hmem).1
  have hextdot : '.' ∉ ext.data := (hgood ext hmem).2
  have hbind : (some exts).bind List.head? = some ext := hpref
  unfold resolveFilename
  cases hfn : foundName resp with
  | some name =>
    simp only [hfn, hexts, hbind]
    exact enforceExtension_ok exts ext name hpref hgood (foundName_ne_empty resp name hfn)
  | none =>
    simp only [hfn, hexts, hbind]
    rw [rustExtension_append "media" ext (by decide) (ne_empty_data hextne) hextdot]
    simp only [Option.any_some]
    exact List.any_eq_true.mpr ⟨ext, hmem, eqIgnoreAsciiCase_refl ext⟩

/-! ## C4 -/

/-- C4: whenever the resolved MIME type has an accepted-extension list with
a canonical (first) extension, the final filename of a successful run has
an extension that is ASCII-case-insensitively a member of that list —
either the discovered name's own extension was already accepted, or the
canonical extension was appended.  The side conditions say the
accepted-extension entries are nonempty tokens without dots or path
separators (true of the mime-db tables) and that a discovered name contains
no path separator (the regime in which `rustExtension` models
`Path::extension`). -/
theorem c4_extension_consistency (resp : Response) (cfg : Config) (env : Env)
    (text : Option String) (a : AttachmentData) (exts : List String) (ext : String)
    (h : process_response resp cfg env text = Except.ok a)
    (hexts : env.mimeExtensions a.mimeType = some exts)
    (hpref : exts.head? = some ext)
    (hgood : ∀ x ∈ exts, x ≠ "" ∧ '.' ∉ x.data ∧ '/' ∉ x.data)
    (_hsep : ∀ n, foundName resp = some n → '/' ∉ n.data) :
    (rustExtension a.filename).any
      (fun e => exts.any (fun x => eqIgnoreAsciiCase x e)) = true := by
  obtain ⟨body, rfl⟩ := process_response_ok_inv resp cfg env text a h
  exact resolveFilename_ext resp env (finalMimeOf resp env body) exts ext hexts hpref
    (fun x hx => ⟨(hgood x hx).1, (hgood x hx).2.1⟩)

/-- Witness for C4: the spec's deceptive-extension scenario — final URL
segment `clip.mp4:orig` sniffed as video/mp4 yields `clip.mp4:orig.mp4`,
whose extension `mp4` is in the accepted list. -/
theorem c4_witness :
    (rustExtension att4.filename).any
      (fun e => ["mp4", "mp4v", "mpg4"].any (fun x => eqIgnoreAsciiCase x e)) = true :=
  c4_extension_consistency resp4 cfg100 env4 none att4 ["mp4", "mp4v", "mpg4"] "mp4"
    rfl rfl rfl (by decide)
    (fun n hn => by
      have h2 : "clip.mp4:orig" = n := Option.some.inj hn
      rw [← h2]
      decide)

end MatrixEmbed
